import Mathlib

/-!
Verification of the NexPort transactional core against its specification.

The Python sources are shallowly embedded: quantities (Python floats used
as exact decimal quantities) become rationals, dates become integer day
numbers, the relational store becomes an explicit state record, and
fallible operations (frappe.throw aborting the enclosing transaction)
return Except.  Each definition mirrors one function of the repository;
the file, line and symbol are given in the doc comments.
-/

namespace NexPort

/-- Status of a Customs Gap record (gap_repository.py, GapStatus). -/
inductive GapStatus
  | Pending
  | Partial
  | Resolved
deriving DecidableEq, Repr

/-- Installment status (constants.py, PaymentStatus). -/
inductive PayStatus
  | Pending
  | Paid
  | Overdue
deriving DecidableEq, Repr

/-- Status of a Stock Reservation (constants.py, StockReservationStatus). -/
inductive ReservationStatus
  | Active
  | Released
  | Cancelled
deriving DecidableEq, Repr

/-- An Item row; only the fields the verified operations touch
(stock_physical, stock_declared, customs_name). -/
structure Item where
  stock_physical : ℚ
  stock_declared : ℚ
  customs_name : Option String
deriving DecidableEq, Repr

/-- A Customs Gap row (the Customs Gap doctype).  The creation field is the
insertion sequence number that ORDER BY creation ASC sorts on. -/
structure Gap where
  name : String
  product : String
  shipment : String
  po : String
  general_name : String
  gap_qty : ℚ
  resolved_qty : ℚ
  status : GapStatus
  deadline : Int
  resolution_ref : String
  creation : Nat
deriving DecidableEq, Repr

/-- A Stock Reservation row. -/
structure StockReservation where
  name : String
  item : String
  sales_order : String
  reserved_physical : ℚ
  reserved_declared : ℚ
  status : ReservationStatus
deriving DecidableEq, Repr

/-- One line of a Shipment. -/
structure ShipmentLine where
  item : String
  quantity : ℚ
  po : String
deriving DecidableEq, Repr

/-- A Shipment document. -/
structure Shipment where
  name : String
  is_formal : Bool
  receipt_processed : Bool
  docstatus : Nat
  customs_exchange_rate : ℚ
  items : List ShipmentLine
deriving DecidableEq, Repr

/-- The inventory-side store: Items, Customs Gaps, Stock Reservations,
Shipments and Purchase Order line data. -/
structure InvState where
  items : String → Option Item
  gaps : List Gap
  reservations : List StockReservation
  shipments : String → Option Shipment
  poReceived : String → String → ℚ
  poQuantity : String → String → ℚ
  poStatus : String → Option String
  poInvoice : String → Option String

/-- Writes one Item row of the store. -/
def setItem (st : InvState) (item_name : String) (it : Item) : InvState :=
  { st with items := fun n => if n = item_name then some it else st.items n }

/-- Mirrors update_stock_atomic (item_repository.py, lines 17-68).  A missing
row is left untouched: the SQL UPDATE matches nothing and the post-update
SELECT returns no row, so the negative check never fires.  The error models
frappe.throw, which aborts the enclosing transaction. -/
def update_stock_atomic (st : InvState) (item_name : String)
    (physical_delta declared_delta : ℚ) : Except String InvState :=
  if physical_delta = 0 ∧ declared_delta = 0 then .ok st
  else
    match st.items item_name with
    | none => .ok st
    | some it =>
      let it2 : Item := { it with
        stock_physical := it.stock_physical + physical_delta,
        stock_declared := it.stock_declared + declared_delta }
      if it2.stock_physical < 0 then .error "negative physical stock"
      else if it2.stock_declared < 0 then .error "negative declared stock"
      else .ok (setItem st item_name it2)

/-- Mirrors update_gap_resolved (gap_repository.py, lines 97-114): add the
delta to resolved_qty and set status plus resolution_ref on the row with the
given name. -/
def update_gap_resolved (st : InvState) (gap_name : String) (resolved_qty : ℚ)
    (new_status : GapStatus) (resolution_ref : String) : InvState :=
  { st with gaps := st.gaps.map fun g =>
      if g.name = gap_name then
        { g with resolved_qty := g.resolved_qty + resolved_qty,
                 status := new_status,
                 resolution_ref := resolution_ref }
      else g }

/-- Mirrors get_pending_gaps_for_update (gap_repository.py, lines 28-34 and
82-94): the Pending or Partial gaps of one general_name, ordered by creation
ascending. -/
def get_pending_gaps_for_update (st : InvState) (customs_name : String) :
    List Gap :=
  List.insertionSort (fun a b => a.creation ≤ b.creation)
    (st.gaps.filter fun g =>
      decide (g.general_name = customs_name ∧
        (g.status = GapStatus.Pending ∨ g.status = GapStatus.Partial)))

/-- One update_gap_resolved call recorded by the FIFO loop. -/
structure GapUpdate where
  gap : String
  product : String
  qty : ℚ
  status : GapStatus
deriving DecidableEq, Repr

/-- Result payload of resolve_gaps (customs_service.py, ResolveGapsResult). -/
structure ResolveGapsResult where
  resolved_count : Nat
  remaining_qty : ℚ
  gaps_affected : List String
deriving DecidableEq, Repr

/-- The FIFO loop of _consume_gaps (customs_service.py, lines 84-98), as the
list of update_gap_resolved calls it issues together with the remaining
declaration quantity.  The loop body reads only the prefetched row values,
never the store, so the calls are a pure function of the locked rows. -/
def consume_gaps_calls : List Gap → ℚ → List GapUpdate × ℚ
  | [], remaining => ([], remaining)
  | g :: rest, remaining =>
    if remaining ≤ 0 then ([], remaining)
    else
      let gap_remaining := g.gap_qty - g.resolved_qty
      if gap_remaining ≤ 0 then consume_gaps_calls rest remaining
      else
        let to_resolve := min gap_remaining remaining
        let new_status := if g.resolved_qty + to_resolve ≥ g.gap_qty then
          GapStatus.Resolved else GapStatus.Partial
        let r := consume_gaps_calls rest (remaining - to_resolve)
        (⟨g.name, g.product, to_resolve, new_status⟩ :: r.1, r.2)

/-- The per-product accumulation of item_declared_delta
(customs_service.py, line 98): a defaultdict in insertion order. -/
def addDelta : List (String × ℚ) → String → ℚ → List (String × ℚ)
  | [], p, q => [(p, q)]
  | (k, v) :: rest, p, q =>
    if k = p then (k, v + q) :: rest else (k, v) :: addDelta rest p q

/-- The item_declared_delta map accumulated over the issued calls. -/
def itemDeltas (ups : List GapUpdate) : List (String × ℚ) :=
  ups.foldl (fun m u => addDelta m u.product u.qty) []

/-- Applies the recorded update_gap_resolved calls to the store, in order. -/
def applyGapUpdates (st : InvState) (ups : List GapUpdate)
    (declaration_ref : String) : InvState :=
  ups.foldl (fun s u => update_gap_resolved s u.gap u.qty u.status declaration_ref) st

/-- Applies the accumulated declared-stock deltas to the Stock Ledger
(customs_service.py, lines 100-102), in the given order. -/
def applyStockDeltas (st : InvState) : List (String × ℚ) → Except String InvState
  | [] => .ok st
  | (k, v) :: rest =>
    match update_stock_atomic st k 0 v with
    | .error e => .error e
    | .ok st2 => applyStockDeltas st2 rest

/-- Mirrors _consume_gaps (customs_service.py, lines 74-115): walk the locked
rows FIFO, update each consumed gap, then apply the per-product declared
deltas to the ledger with products sorted ascending by identifier. -/
def consume_gaps (st : InvState) (gaps : List Gap) (qty_to_consume : ℚ)
    (declaration_ref : String) : Except String (InvState × ResolveGapsResult) :=
  let calls := consume_gaps_calls gaps qty_to_consume
  let st1 := applyGapUpdates st calls.1 declaration_ref
  match applyStockDeltas st1
      (List.insertionSort (fun a b => a.1 ≤ b.1) (itemDeltas calls.1)) with
  | .error e => .error e
  | .ok st2 => .ok (st2, ⟨calls.1.length, calls.2, calls.1.map GapUpdate.gap⟩)

/-- Mirrors resolve_gaps (customs_service.py, lines 30-71).  A non-positive
declaration is a logged no-op returning zeros; otherwise the pending gaps are
locked and consumed in one transaction.  An error rolls the transaction back
(the caller keeps the pre-call state); the lock-timeout message translation
does not change the store and is not modelled. -/
def resolve_gaps (st : InvState) (customs_name : String) (declaration_qty : ℚ)
    (declaration_ref : String) : Except String (InvState × ResolveGapsResult) :=
  if declaration_qty ≤ 0 then .ok (st, ⟨0, 0, []⟩)
  else consume_gaps st (get_pending_gaps_for_update st customs_name)
    declaration_qty declaration_ref

/-- Spec side, from the words of claim C1: the quantity consumed from each
open gap in FIFO order is the minimum of the open remainder of the gap and
the remaining declaration. -/
def fifoDeltas : List Gap → ℚ → List ℚ
  | [], _ => []
  | g :: rest, remaining =>
    let d := min (g.gap_qty - g.resolved_qty) remaining
    d :: fifoDeltas rest (remaining - d)

/-- Spec side, from the words of claim C1: every gap with a positive FIFO
consumption gains that quantity and is marked Resolved exactly when its
resolved quantity reaches gap_qty, else Partial. -/
def specFifoCalls (gaps : List Gap) (d : ℚ) : List GapUpdate :=
  ((gaps.zip (fifoDeltas gaps d)).filter fun p => decide (0 < p.2)).map
    fun p => ⟨p.1.name, p.1.product, p.2,
      if p.1.resolved_qty + p.2 = p.1.gap_qty then GapStatus.Resolved
      else GapStatus.Partial⟩

/-- Total open quantity of a list of gap rows. -/
def totalOpen (gaps : List Gap) : ℚ :=
  (gaps.map fun g => g.gap_qty - g.resolved_qty).sum

/-- Mirrors create_gap (gap_repository.py, lines 46-79): insert a new gap row
with resolved_qty 0 and status Pending.  The document name and the creation
sequence number are assigned by the store at insertion. -/
def create_gap (st : InvState) (product shipment po general_name : String)
    (gap_qty : ℚ) (deadline : Int) : InvState :=
  { st with gaps := st.gaps ++
      [⟨"GAP-" ++ toString st.gaps.length, product, shipment, po, general_name,
        gap_qty, 0, GapStatus.Pending, deadline, "", st.gaps.length⟩] }

/-- Modelled from the spec: increment_received_qty (po_repository.py, absent
from the sources) adds the delta to the cumulative received_qty of the PO
line, per section 3: received_qty is cumulative, incremented by the Receipt
Processor. -/
def increment_received_qty (st : InvState) (po item : String)
    (qty_delta : ℚ) : InvState :=
  { st with poReceived := fun p i =>
      if p = po ∧ i = item then st.poReceived p i + qty_delta
      else st.poReceived p i }

/-- Modelled from the spec: mark_receipt_processed (shipment_repository.py,
absent from the sources) flips the receipt_processed idempotency flag of the
shipment, per sections 3 and 4.3. -/
def mark_receipt_processed (st : InvState) (shipment_id : String) : InvState :=
  { st with shipments := fun n =>
      if n = shipment_id then
        (st.shipments n).map fun sh => { sh with receipt_processed := true }
      else st.shipments n }

/-- Mirrors _resolve_customs_name (inventory_service.py, lines 327-335):
read customs_name from the Item row (the in-memory cache holds the same
value). -/
def resolve_customs_name (st : InvState) (item_code : String) : Option String :=
  match st.items item_code with
  | none => none
  | some it => it.customs_name

/-- One entry of the processed-items payload (ReceiptItemResult). -/
structure ReceiptItemResult where
  item : String
  qty : ℚ
  po : String
deriving DecidableEq, Repr

/-- PO statuses eligible for receipt (inventory_service.py, line 35). -/
def ALLOWED_PO_RECEIPT_STATUSES : List String :=
  ["Ordered", "Confirmed", "Shipped", "Received"]

/-- Mirrors _validate_shipment_for_receipt (inventory_service.py,
lines 194-279): submitted shipment with lines, positive quantities, linked
POs in an allowed status with an invoice link, a positive exchange rate for
formal shipments, and a customs_name on every item of an informal shipment. -/
def validate_shipment_for_receipt (st : InvState) (sh : Shipment) :
    Except String Unit :=
  if sh.docstatus ≠ 1 then .error "Shipment must be submitted before receipt"
  else if sh.items.isEmpty then .error "Shipment has no items"
  else if ¬ sh.items.all (fun l => decide (0 < l.quantity)) then
    .error "Invalid quantity"
  else if ¬ sh.items.all (fun l => decide (l.po ≠ "")) then
    .error "Shipment item has no linked PO"
  else if ¬ sh.items.all (fun l =>
      decide (∃ s ∈ ALLOWED_PO_RECEIPT_STATUSES, st.poStatus l.po = some s)) then
    .error "PO not found or not receivable"
  else if ¬ sh.items.all (fun l => (st.poInvoice l.po).isSome) then
    .error "PO missing invoice link"
  else if sh.is_formal ∧ sh.customs_exchange_rate ≤ 0 then
    .error "Formal shipment requires positive customs_exchange_rate"
  else if ¬ sh.is_formal ∧
      ¬ sh.items.all (fun l => (resolve_customs_name st l.item).isSome) then
    .error "Item has no customs_name"
  else .ok ()

/-- One iteration of the line loop of _execute_receipt_transaction
(inventory_service.py, lines 303-322): dual-track stock update, gap creation
for informal receipts, and the received_qty increment. -/
def process_receipt_line (sh : Shipment) (shipment_id : String)
    (gap_deadline : Int) (st : InvState) (l : ShipmentLine) :
    Except String InvState :=
  let qty := l.quantity
  if sh.is_formal then
    match update_stock_atomic st l.item qty qty with
    | .error e => .error e
    | .ok st1 => .ok (increment_received_qty st1 l.po l.item qty)
  else
    match update_stock_atomic st l.item qty 0 with
    | .error e => .error e
    | .ok st1 =>
      match resolve_customs_name st1 l.item with
      | none => .error "Item has no customs_name"
      | some customs_name =>
        let st2 := create_gap st1 l.item shipment_id l.po customs_name qty
          gap_deadline
        .ok (increment_received_qty st2 l.po l.item qty)

/-- Mirrors _execute_receipt_transaction (inventory_service.py,
lines 281-324): fold the line loop over the shipment lines, collecting the
processed-item payloads in order. -/
def execute_receipt_transaction (sh : Shipment) (shipment_id : String)
    (gap_deadline : Int) :
    InvState → List ShipmentLine → Except String (InvState × List ReceiptItemResult)
  | st, [] => .ok (st, [])
  | st, l :: rest =>
    match process_receipt_line sh shipment_id gap_deadline st l with
    | .error e => .error e
    | .ok st1 =>
      match execute_receipt_transaction sh shipment_id gap_deadline st1 rest with
      | .error e => .error e
      | .ok (st2, results) => .ok (st2, ⟨l.item, l.quantity, l.po⟩ :: results)

/-- Outcome of the over-receipt handler for one PO; the handler itself is an
external collaborator (procurement_service.py), modelled as a parameter. -/
structure OverReceiptResult where
  success : Bool
deriving DecidableEq, Repr

/-- An over-receipt payload entry (OverReceiptItemResult). -/
structure OverReceiptItem where
  item : String
  over_qty : ℚ
deriving DecidableEq, Repr

/-- Appends an entry to the per-PO group, preserving first-seen PO order
(the setdefault pattern of _collect_over_receipt_items). -/
def addToGroup : List (String × List OverReceiptItem) → String →
    OverReceiptItem → List (String × List OverReceiptItem)
  | [], p, a => [(p, [a])]
  | (k, v) :: rest, p, a =>
    if k = p then (k, v ++ [a]) :: rest else (k, v) :: addToGroup rest p a

/-- Mirrors _collect_over_receipt_items (inventory_service.py,
lines 360-374): lines whose PO row shows received_qty above quantity,
grouped by PO. -/
def collect_over_receipt_items (st : InvState) (sh : Shipment) :
    List (String × List OverReceiptItem) :=
  sh.items.foldl
    (fun m l =>
      let over := st.poReceived l.po l.item - st.poQuantity l.po l.item
      if 0 < over then addToGroup m l.po ⟨l.item, over⟩ else m)
    []

/-- Mirrors _check_over_receipts with _handle_over_receipt_for_po
(inventory_service.py, lines 338-392): call the external handler per PO; a
handler exception is caught, logged, and reported as a failure entry. -/
def check_over_receipts
    (handler : String → String → List OverReceiptItem →
      Except String OverReceiptResult)
    (st : InvState) (sh : Shipment) (shipment_id : String) :
    List (String × OverReceiptResult) :=
  (collect_over_receipt_items st sh).map fun p =>
    (p.1, match handler p.1 shipment_id p.2 with
          | .ok r => r
          | .error _ => ⟨false⟩)

/-- Response payload of process_receipt (ProcessReceiptResult).  Keys absent
from the Python dict are the empty defaults here. -/
structure ProcessReceiptResult where
  success : Bool
  items : List ReceiptItemResult
  over_receipts : List (String × OverReceiptResult)
  message : String
  already_existed : Bool
deriving DecidableEq, Repr

/-- Mirrors _build_already_processed_result (inventory_service.py,
lines 149-155). -/
def build_already_processed_result : ProcessReceiptResult :=
  ⟨true, [], [], "Already processed", true⟩

/-- Mirrors _build_process_receipt_result (inventory_service.py,
lines 158-176): success only when no over-receipt handler failed. -/
def build_process_receipt_result (items : List ReceiptItemResult)
    (over_receipts : List (String × OverReceiptResult)) : ProcessReceiptResult :=
  let has_failures := over_receipts.any fun p => ¬ p.2.success
  ⟨¬ has_failures, items, over_receipts,
    if has_failures then
      "Receipt posted, but over-receipt follow-up failed for one or more POs"
    else "", false⟩

/-- Mirrors process_receipt (inventory_service.py, lines 99-146): the
idempotency early return, pre-validation, the transactional phase (its
failure rolls everything back and surfaces a generic error), the
receipt_processed flip, and the best-effort over-receipt phase.  The
gap-deadline-days configuration is injected per spec section 9. -/
def process_receipt
    (handler : String → String → List OverReceiptItem →
      Except String OverReceiptResult)
    (st : InvState) (shipment_id : String) (gap_deadline_days today : Int) :
    Except String (InvState × ProcessReceiptResult) :=
  match st.shipments shipment_id with
  | none => .error "Shipment not found"
  | some sh =>
    if sh.receipt_processed then .ok (st, build_already_processed_result)
    else
      match validate_shipment_for_receipt st sh with
      | .error e => .error e
      | .ok _ =>
        match execute_receipt_transaction sh shipment_id
            (today + gap_deadline_days) st sh.items with
        | .error _ => .error "Shipment receipt failed. Error logged."
        | .ok (st1, results) =>
          let st2 := mark_receipt_processed st1 shipment_id
          let overs := check_over_receipts handler st2 sh shipment_id
          .ok (st2, build_process_receipt_result results overs)

/-- Availability payload of get_available_stock (inventory_service.py,
lines 421-468). -/
structure AvailableStock where
  physical_total : ℚ
  declared_total : ℚ
  reserved_physical : ℚ
  reserved_declared : ℚ
  available_physical : ℚ
  available_declared : ℚ
deriving DecidableEq, Repr

/-- Mirrors get_available_stock (inventory_service.py, lines 421-468):
totals minus the sums over Active reservations. -/
def get_available_stock (st : InvState) (item : String) :
    Except String AvailableStock :=
  match st.items item with
  | none => .error "Item not found"
  | some it =>
    let active := st.reservations.filter fun r =>
      decide (r.item = item ∧ r.status = ReservationStatus.Active)
    let rp := (active.map StockReservation.reserved_physical).sum
    let rd := (active.map StockReservation.reserved_declared).sum
    .ok ⟨it.stock_physical, it.stock_declared, rp, rd,
      it.stock_physical - rp, it.stock_declared - rd⟩

/-- Mirrors reserve_stock (inventory_service.py, lines 471-518): positive
quantity, availability check, then insertion of one Active reservation with
reserved_declared capped at the available declared stock.  Returns the
post-reservation physical availability. -/
def reserve_stock (st : InvState) (item sales_order : String) (qty : ℚ) :
    Except String (InvState × ℚ) :=
  if qty ≤ 0 then .error "Reserve quantity must be positive"
  else
    match get_available_stock st item with
    | .error e => .error e
    | .ok stock =>
      if stock.available_physical < qty then .error "Insufficient stock"
      else
        let res : StockReservation :=
          ⟨"RES-" ++ toString st.reservations.length, item, sales_order,
            qty, min qty stock.available_declared, ReservationStatus.Active⟩
        .ok ({ st with reservations := st.reservations ++ [res] },
          stock.available_physical - qty)

/-- Transactional wrapper for reserve_stock: a validation error aborts the
enclosing transaction, leaving the store as it was. -/
def reserve_stock_tx (st : InvState) (item sales_order : String) (qty : ℚ) :
    InvState :=
  match reserve_stock st item sales_order qty with
  | .ok p => p.1
  | .error _ => st

/-- Payment terms (constants.py, PaymentTerms). -/
inductive PaymentTerms
  | Immediate
  | Net30
  | Net60
  | Net90
  | Installment3
  | Installment6
  | Custom
deriving DecidableEq, Repr

/-- One NexPort Payment Plan child row of an Invoice. -/
structure InstallmentRow where
  installment_number : Nat
  due_date : Int
  amount : ℚ
  status : PayStatus
  paid_amount : ℚ
  paid_date : Option Int
  payment_reference : String
  exchange_rate_variance : ℚ
deriving DecidableEq, Repr

/-- A NexPort Payment Execution row. -/
structure PaymentExecution where
  name : String
  invoice : String
  installment : Nat
  payment_date : Int
  amount_paid : ℚ
  exchange_rate : ℚ
  remittance_reference : String
  bank_reference : String
  fx_variance : ℚ
  idempotency_key : String
deriving DecidableEq, Repr

/-- An Invoice document with its payment_schedule child rows.  The
payment_terms Option models the falsy empty field checked by
generate_payment_schedule. -/
structure Invoice where
  name : String
  payment_terms : Option PaymentTerms
  invoice_date : Int
  total_amount : ℚ
  actual_exchange_rate : ℚ
  status : String
  payment_schedule : List InstallmentRow
deriving DecidableEq, Repr

/-- The settlement-side store: Invoices with their installment rows, and the
Payment Execution records. -/
structure PayState where
  invoices : String → Option Invoice
  executions : List PaymentExecution

/-- A fresh Pending installment row as appended by generate_payment_schedule
(payment_service.py, lines 37-92); fields it does not set default to
zero/empty. -/
def mkInstallment (n : Nat) (due : Int) (amount : ℚ) : InstallmentRow :=
  ⟨n, due, amount, PayStatus.Pending, 0, none, "", 0⟩

/-- The term table of generate_payment_schedule (payment_service.py,
lines 37-92): the rows appended for each payment term.  No branch matches
the Custom term, so the cleared schedule stays empty. -/
def termScheduleRows (t : PaymentTerms) (invoice_date : Int) (amount : ℚ) :
    List InstallmentRow :=
  match t with
  | .Immediate => [mkInstallment 1 invoice_date amount]
  | .Net30 => [mkInstallment 1 (invoice_date + 30) amount]
  | .Net60 => [mkInstallment 1 (invoice_date + 60) amount]
  | .Net90 => [mkInstallment 1 (invoice_date + 90) amount]
  | .Installment3 =>
    [mkInstallment 1 (invoice_date + 30) (amount / 3),
     mkInstallment 2 (invoice_date + 60) (amount / 3),
     mkInstallment 3 (invoice_date + 90) (amount / 3)]
  | .Installment6 =>
    [mkInstallment 1 (invoice_date + 30) (amount / 6),
     mkInstallment 2 (invoice_date + 60) (amount / 6),
     mkInstallment 3 (invoice_date + 90) (amount / 6),
     mkInstallment 4 (invoice_date + 120) (amount / 6),
     mkInstallment 5 (invoice_date + 150) (amount / 6),
     mkInstallment 6 (invoice_date + 180) (amount / 6)]
  | .Custom => []

/-- Mirrors generate_payment_schedule (payment_service.py, lines 22-94):
return unchanged when payment_terms is unset; otherwise clear the existing
schedule and append the rows of the term table, then save. -/
def generate_payment_schedule (inv : Invoice) : Invoice :=
  match inv.payment_terms with
  | none => inv
  | some t =>
    { inv with payment_schedule :=
        termScheduleRows t inv.invoice_date inv.total_amount }

/-- Mirrors the auto-population guard of Invoice.validate
(doctype/invoice/invoice.py, lines 19-23): generate only when payment_terms
is set, the schedule is empty, and the document is not new. -/
def invoice_validate_autogen (inv : Invoice) (is_new : Bool) : Invoice :=
  if inv.payment_terms.isSome ∧ inv.payment_schedule = [] ∧ is_new = false then
    generate_payment_schedule inv
  else inv

/-- The derived idempotency key of a Payment Execution
(nexport_payment_execution.py, lines 13-15). -/
def mkIdempotencyKey (invoice : String) (installment : Nat)
    (remittance_reference : String) : String :=
  invoice ++ "|" ++ toString installment ++ "|" ++ remittance_reference

/-- Updates one invoice in the store. -/
def updateInvoice (st : PayState) (name : String) (f : Invoice → Invoice) :
    PayState :=
  { st with invoices := fun n =>
      if n = name then (st.invoices n).map f else st.invoices n }

/-- Mirrors _sync_invoice_status (payment_service.py, lines 331-349): all
rows Paid gives Paid, some row Paid gives Partial, no rows or no Paid row
leaves the status unchanged. -/
def sync_invoice_status (st : PayState) (invoice : String) : PayState :=
  updateInvoice st invoice fun inv =>
    if inv.payment_schedule.isEmpty then inv
    else if inv.payment_schedule.all (fun r => decide (r.status = PayStatus.Paid)) then
      { inv with status := "Paid" }
    else if inv.payment_schedule.any (fun r => decide (r.status = PayStatus.Paid)) then
      { inv with status := "Partial" }
    else inv

/-- Mirrors record_payment (payment_service.py, lines 253-328), Phase 1 of
the two-phase settlement commit: compute the FX variance with the falsy
invoice rate falling back to 1.0, insert the Payment Execution (its
before_insert hook derives the idempotency key and throws on a duplicate),
update the matching installment rows by keyed SQL update, and recompute the
invoice status.  The execution document name is assigned at insertion. -/
def record_payment (st : PayState) (invoice : String) (installment_no : Nat)
    (payment_date : Int) (amount_paid exchange_rate : ℚ)
    (remittance_reference bank_reference : String) :
    Except String (PayState × String) :=
  match st.invoices invoice with
  | none => .error "Invoice not found"
  | some inv_doc =>
    let invoice_rate : ℚ :=
      if inv_doc.actual_exchange_rate = 0 then 1 else inv_doc.actual_exchange_rate
    let fx_variance := (exchange_rate - invoice_rate) * amount_paid
    let key := mkIdempotencyKey invoice installment_no remittance_reference
    if st.executions.any (fun e => decide (e.idempotency_key = key)) then
      .error "Duplicate payment"
    else
      let exec_name := "PE-" ++ toString st.executions.length
      let exec_doc : PaymentExecution :=
        ⟨exec_name, invoice, installment_no, payment_date, amount_paid,
          exchange_rate, remittance_reference, bank_reference, fx_variance, key⟩
      let st1 := { st with executions := st.executions ++ [exec_doc] }
      let st2 := updateInvoice st1 invoice fun inv =>
        { inv with payment_schedule := inv.payment_schedule.map fun r =>
            if r.installment_number = installment_no then
              { r with status := PayStatus.Paid,
                       paid_amount := amount_paid,
                       paid_date := some payment_date,
                       payment_reference := exec_name,
                       exchange_rate_variance := fx_variance }
            else r }
      .ok (sync_invoice_status st2 invoice, exec_name)

/-- The payment_phase1 savepoint discipline around record_payment: any
failure rolls the phase back to the savepoint and re-raises, so the caller
observes the pre-call store and no execution name. -/
def record_payment_tx (st : PayState) (invoice : String) (installment_no : Nat)
    (payment_date : Int) (amount_paid exchange_rate : ℚ)
    (remittance_reference bank_reference : String) : PayState × Option String :=
  match record_payment st invoice installment_no payment_date amount_paid
      exchange_rate remittance_reference bank_reference with
  | .ok p => (p.1, some p.2)
  | .error _ => (st, none)

/-- Mirrors trigger_revaluation (payment_service.py, lines 352-371), Phase 2
of the two-phase settlement commit: run the finance-side revaluation (an
external collaborator, passed as a parameter) under the payment_phase2
savepoint; on failure roll back only that savepoint, log, and swallow. -/
def trigger_revaluation (revalue : PayState → Except String PayState)
    (st : PayState) : PayState :=
  match revalue st with
  | .ok st2 => st2
  | .error _ => st

/-- Spec side, from the words of the amended claim C6: the effective invoice
rate used for the FX variance, an unset or zero actual_exchange_rate being
treated as 1.0. -/
def effectiveInvoiceRate (r : ℚ) : ℚ :=
  if r = 0 then 1 else r

/-- A sequence of update_stock_atomic calls on one item inside one
transaction (claim C3). -/
def update_stock_seq (item : String) :
    InvState → List (ℚ × ℚ) → Except String InvState
  | st, [] => .ok st
  | st, d :: rest =>
    match update_stock_atomic st item d.1 d.2 with
    | .error e => .error e
    | .ok st1 => update_stock_seq item st1 rest

/-- The enclosing transaction around a delta sequence: a validation error
rolls the whole transaction back to the initial store. -/
def update_stock_seq_tx (st : InvState) (item : String) (ds : List (ℚ × ℚ)) :
    InvState :=
  match update_stock_seq item st ds with
  | .ok st1 => st1
  | .error _ => st

/-- Spec side, from the words of claim C3: every intermediate result of the
delta sequence keeps both quantities non-negative. -/
def intermediatesOk : ℚ → ℚ → List (ℚ × ℚ) → Bool
  | _, _, [] => true
  | p, d, pd :: rest =>
    decide (0 ≤ p + pd.1) && decide (0 ≤ d + pd.2) &&
      intermediatesOk (p + pd.1) (d + pd.2) rest

/-- The empty store, base of the concrete examples. -/
def emptyInvState : InvState :=
  ⟨fun _ => none, [], [], fun _ => none, fun _ _ => 0, fun _ _ => 0,
    fun _ => none, fun _ => none⟩

/-- Gap G1 of the first claim C1 example: qty 5, created first. -/
def gapG1 : Gap :=
  ⟨"G1", "ITEM-A", "SH-1", "PO-1", "CN-1", 5, 0, GapStatus.Pending, 100, "", 1⟩

/-- Gap G2 of the first claim C1 example: qty 5, created second. -/
def gapG2 : Gap :=
  ⟨"G2", "ITEM-B", "SH-1", "PO-1", "CN-1", 5, 0, GapStatus.Pending, 100, "", 2⟩

/-- Single gap of the second claim C1 example: qty 5 under key CN-1. -/
def gapG3 : Gap :=
  ⟨"G3", "ITEM-A", "SH-1", "PO-1", "CN-1", 5, 0, GapStatus.Pending, 100, "", 1⟩

/-- Items of the claim C1 example stores. -/
def c1Items : String → Option Item := fun n =>
  if n = "ITEM-A" ∨ n = "ITEM-B" then some ⟨0, 0, some "CN-1"⟩ else none

/-- Store of the first claim C1 example; the gap list is held out of
creation order so the ORDER BY creation ASC of the selection matters. -/
def c1StateA : InvState :=
  { emptyInvState with items := c1Items, gaps := [gapG2, gapG1] }

/-- Store of the second claim C1 example. -/
def c1StateB : InvState :=
  { emptyInvState with items := c1Items, gaps := [gapG3] }

/-- An invoice with one pending installment of 1000 due at day 0, actual
exchange rate 30. -/
def invINV1 : Invoice :=
  ⟨"INV-1", none, 0, 1000, 30, "Unpaid", [mkInstallment 1 0 1000]⟩

/-- A stored Payment Execution against installment 1 of INV-1 with
remittance reference R1. -/
def execPE0 : PaymentExecution :=
  ⟨"PE-0", "INV-1", 1, 0, 1000, 30, "R1", "", 0,
    mkIdempotencyKey "INV-1" 1 "R1"⟩

/-- Settlement store of the claim C4 witness: INV-1 plus an already-recorded
execution whose idempotency key collides with the incoming payment. -/
def c4State : PayState :=
  ⟨fun n => if n = "INV-1" then some invINV1 else none, [execPE0]⟩

/-- Settlement store of the claim C6 witness: INV-1 with rate 30 and no
executions yet. -/
def c6State : PayState :=
  ⟨fun n => if n = "INV-1" then some invINV1 else none, []⟩

/-- An invoice whose actual_exchange_rate is unset (zero), for the claim C6
counterexample. -/
def invINV0 : Invoice :=
  ⟨"INV-0", none, 0, 1000, 0, "Unpaid", [mkInstallment 1 0 1000]⟩

/-- Settlement store of the claim C6 counterexample. -/
def c6cxState : PayState :=
  ⟨fun n => if n = "INV-0" then some invINV0 else none, []⟩

/-- An invoice whose payment_schedule is already populated, with a row the
Settlement Engine has marked Paid; payment_terms Immediate, total 100.  Used
by the claim C5 counterexample. -/
def c5Invoice : Invoice :=
  ⟨"INV-5", some PaymentTerms.Immediate, 0, 100, 30, "Partial",
    [⟨1, 0, 100, PayStatus.Paid, 100, some 5, "PE-9", 0⟩]⟩

/-- The empty settlement store. -/
def emptyPayState : PayState :=
  ⟨fun _ => none, []⟩

/-- A stock delta whose results stay non-negative succeeds and lands exactly
on the summed quantities, leaving every other field of the store alone. -/
theorem update_stock_atomic_ok_eq (st : InvState) (item : String) (it : Item)
    (pd dd : ℚ) (h : st.items item = some it)
    (hp : 0 ≤ it.stock_physical + pd) (hd : 0 ≤ it.stock_declared + dd) :
    update_stock_atomic st item pd dd =
      .ok (setItem st item ⟨it.stock_physical + pd, it.stock_declared + dd,
        it.customs_name⟩) := by
  by_cases hz : pd = 0 ∧ dd = 0
  · obtain ⟨h1, h2⟩ := hz
    subst h1; subst h2
    simp only [update_stock_atomic, and_self, if_true]
    congr 1
    cases st with
    | mk items gaps reservations shipments poReceived poQuantity poStatus poInvoice =>
      simp only [setItem, InvState.mk.injEq, and_true, true_and]
      funext n
      by_cases hn : n = item
      · subst hn
        simp only [if_true, add_zero]
        exact h
      · simp [hn]
  · simp only [update_stock_atomic, if_neg hz, h]
    simp only [not_lt.mpr hp, not_lt.mpr hd, if_false]

/-- A stock delta that would drive a quantity negative fails with a
validation error. -/
theorem update_stock_atomic_neg (st : InvState) (item : String) (it : Item)
    (pd dd : ℚ) (h : st.items item = some it) (hnz : ¬(pd = 0 ∧ dd = 0))
    (hneg : it.stock_physical + pd < 0 ∨ it.stock_declared + dd < 0) :
    ∃ e, update_stock_atomic st item pd dd = .error e := by
  simp only [update_stock_atomic, if_neg hnz, h]
  by_cases h1 : it.stock_physical + pd < 0
  · exact ⟨"negative physical stock", by simp [h1]⟩
  · have h2 : it.stock_declared + dd < 0 := hneg.resolve_left h1
    exact ⟨"negative declared stock", by simp [h1, h2]⟩

/-- Claim C3: starting from non-negative stock, a delta sequence whose
intermediate results all stay non-negative succeeds and the final
stock_physical and stock_declared equal the initial values plus the sums of
the respective deltas; a sequence with a negative intermediate fails with a
validation error and the rolled-back transaction leaves the store (hence
both stock columns) unchanged. -/
theorem c3_update_stock_delta_sequences (st : InvState) (item : String)
    (it : Item) (ds : List (ℚ × ℚ)) (h : st.items item = some it)
    (hp : 0 ≤ it.stock_physical) (hd : 0 ≤ it.stock_declared) :
    (intermediatesOk it.stock_physical it.stock_declared ds = true →
      ∃ st2, update_stock_seq item st ds = .ok st2 ∧
        st2.items item = some ⟨it.stock_physical + (ds.map Prod.fst).sum,
          it.stock_declared + (ds.map Prod.snd).sum, it.customs_name⟩) ∧
    (intermediatesOk it.stock_physical it.stock_declared ds = false →
      (∃ e, update_stock_seq item st ds = .error e) ∧
      update_stock_seq_tx st item ds = st) := by
  induction ds generalizing st it with
  | nil =>
    refine ⟨fun _ => ⟨st, rfl, ?_⟩, fun hfalse => by simp [intermediatesOk] at hfalse⟩
    cases it
    simp [h]
  | cons d rest ih =>
    by_cases hok : 0 ≤ it.stock_physical + d.1 ∧ 0 ≤ it.stock_declared + d.2
    · obtain ⟨hp1, hd1⟩ := hok
      have hstep := update_stock_atomic_ok_eq st item it d.1 d.2 h hp1 hd1
      set st1 : InvState := setItem st item ⟨it.stock_physical + d.1,
        it.stock_declared + d.2, it.customs_name⟩ with hst1
      have h1 : st1.items item =
          some ⟨it.stock_physical + d.1, it.stock_declared + d.2,
            it.customs_name⟩ := by
        simp [hst1, setItem]
      have hiok : intermediatesOk it.stock_physical it.stock_declared (d :: rest) =
          intermediatesOk (it.stock_physical + d.1) (it.stock_declared + d.2) rest := by
        simp [intermediatesOk, hp1, hd1]
      have hseq : update_stock_seq item st (d :: rest) =
          update_stock_seq item st1 rest := by
        simp [update_stock_seq, hstep]
      obtain ⟨ihT, ihF⟩ := ih st1 _ h1 hp1 hd1
      constructor
      · intro htrue
        rw [hiok] at htrue
        obtain ⟨st2, hrun, hitem⟩ := ihT htrue
        refine ⟨st2, by rw [hseq]; exact hrun, ?_⟩
        rw [hitem]
        simp only [List.map_cons, List.sum_cons, Item.mk.injEq, Option.some.injEq]
        refine ⟨by ring, by ring, ?_⟩
        try rfl
        try trivial
      · intro hfalse
        rw [hiok] at hfalse
        obtain ⟨⟨e, herr⟩, _⟩ := ihF hfalse
        have herr2 : update_stock_seq item st (d :: rest) = .error e := by
          rw [hseq]; exact herr
        exact ⟨⟨e, herr2⟩, by simp [update_stock_seq_tx, herr2]⟩
    · have hnz : ¬(d.1 = 0 ∧ d.2 = 0) := by
        rintro ⟨h1, h2⟩
        exact hok ⟨by simpa [h1] using hp, by simpa [h2] using hd⟩
      have hneg : it.stock_physical + d.1 < 0 ∨ it.stock_declared + d.2 < 0 := by
        by_contra hc
        push_neg at hc
        exact hok ⟨le_of_not_lt (fun hlt => absurd (hc.1) (not_le.mpr hlt)),
          le_of_not_lt (fun hlt => absurd (hc.2) (not_le.mpr hlt))⟩
      obtain ⟨e, herr⟩ := update_stock_atomic_neg st item it d.1 d.2 h hnz hneg
      have herr2 : update_stock_seq item st (d :: rest) = .error e := by
        simp [update_stock_seq, herr]
      have hfals : intermediatesOk it.stock_physical it.stock_declared
          (d :: rest) = false := by
        rcases hneg with hlt | hlt
        · simp [intermediatesOk, not_le.mpr hlt]
        · simp [intermediatesOk, not_le.mpr hlt]
      constructor
      · intro htrue
        rw [hfals] at htrue
        exact absurd htrue (by simp)
      · intro _
        exact ⟨⟨e, herr2⟩, by simp [update_stock_seq_tx, herr2]⟩

/-- Witness for claim C3 at a concrete store: a safe two-delta sequence sums
up, and a sequence driving the physical stock negative rolls back. -/
theorem c3_update_stock_delta_sequences_witness :
    (∃ st2, update_stock_seq "ITEM-A"
        { emptyInvState with items := fun n =>
            if n = "ITEM-A" then some ⟨5, 5, none⟩ else none }
        [(1, 2), (-3, -4)] = .ok st2 ∧
      st2.items "ITEM-A" = some ⟨3, 3, none⟩) ∧
    update_stock_seq_tx
        { emptyInvState with items := fun n =>
            if n = "ITEM-A" then some ⟨5, 5, none⟩ else none }
        "ITEM-A" [(1, 2), (-7, 0)] =
      { emptyInvState with items := fun n =>
          if n = "ITEM-A" then some ⟨5, 5, none⟩ else none } := by
  constructor
  · have hmain := (c3_update_stock_delta_sequences
      { emptyInvState with items := fun n =>
          if n = "ITEM-A" then some ⟨5, 5, none⟩ else none }
      "ITEM-A" ⟨5, 5, none⟩ [(1, 2), (-3, -4)] (by simp) (by norm_num)
      (by norm_num)).1 (by simp [intermediatesOk]; norm_num)
    obtain ⟨st2, hrun, hitem⟩ := hmain
    exact ⟨st2, hrun, by rw [hitem]; norm_num⟩
  · exact (c3_update_stock_delta_sequences
      { emptyInvState with items := fun n =>
          if n = "ITEM-A" then some ⟨5, 5, none⟩ else none }
      "ITEM-A" ⟨5, 5, none⟩ [(1, 2), (-7, 0)] (by simp) (by norm_num)
      (by norm_num)).2 (by simp [intermediatesOk]; norm_num) |>.2

/-- Claim C7: a failure of the phase-2 revaluation is caught and swallowed —
trigger_revaluation returns normally — and the phase-1 state is untouched:
the Payment Execution records and the invoices (installment rows and invoice
statuses) are exactly as phase 1 left them. -/
theorem c7_trigger_revaluation_swallows
    (revalue : PayState → Except String PayState) (st : PayState) (e : String)
    (h : revalue st = .error e) :
    trigger_revaluation revalue st = st ∧
    (trigger_revaluation revalue st).executions = st.executions ∧
    (trigger_revaluation revalue st).invoices = st.invoices := by
  have heq : trigger_revaluation revalue st = st := by
    simp [trigger_revaluation, h]
  exact ⟨heq, by rw [heq], by rw [heq]⟩

/-- Witness for claim C7: a revaluation that always fails leaves a concrete
phase-1 store untouched. -/
theorem c7_trigger_revaluation_swallows_witness :
    trigger_revaluation (fun _ => .error "revaluation failed") c4State =
      c4State := by
  exact (c7_trigger_revaluation_swallows (fun _ => .error "revaluation failed")
    c4State "revaluation failed" rfl).1

/-- Claim C4: record_payment with a remittance reference whose derived
idempotency key already exists on a stored Payment Execution raises, and the
phase-1 savepoint rollback leaves the store unchanged: no new Payment
Execution record and no installment mutation. -/
theorem c4_record_payment_duplicate (st : PayState) (invoice : String)
    (installment_no : Nat) (payment_date : Int) (amount_paid exchange_rate : ℚ)
    (remref bankref : String)
    (hdup : ∃ ex ∈ st.executions,
      ex.idempotency_key = mkIdempotencyKey invoice installment_no remref) :
    (∃ msg, record_payment st invoice installment_no payment_date amount_paid
      exchange_rate remref bankref = .error msg) ∧
    record_payment_tx st invoice installment_no payment_date amount_paid
      exchange_rate remref bankref = (st, none) := by
  obtain ⟨ex, hmem, hkey⟩ := hdup
  have hany : st.executions.any (fun ex2 => decide (ex2.idempotency_key =
      mkIdempotencyKey invoice installment_no remref)) = true :=
    List.any_eq_true.mpr ⟨ex, hmem, by simp [hkey]⟩
  cases hocase : st.invoices invoice with
  | none =>
    have herr : record_payment st invoice installment_no payment_date
        amount_paid exchange_rate remref bankref = .error "Invoice not found" := by
      simp [record_payment, hocase]
    exact ⟨⟨"Invoice not found", herr⟩, by simp [record_payment_tx, herr]⟩
  | some inv_doc =>
    have herr : record_payment st invoice installment_no payment_date
        amount_paid exchange_rate remref bankref = .error "Duplicate payment" := by
      simp [record_payment, hocase, hany]
    exact ⟨⟨"Duplicate payment", herr⟩, by simp [record_payment_tx, herr]⟩

/-- Witness for claim C4: replaying remittance reference R1 against INV-1
installment 1 fails and changes nothing. -/
theorem c4_record_payment_duplicate_witness :
    (∃ msg, record_payment c4State "INV-1" 1 0 1000 30 "R1" "" = .error msg) ∧
    record_payment_tx c4State "INV-1" 1 0 1000 30 "R1" "" = (c4State, none) := by
  exact c4_record_payment_duplicate c4State "INV-1" 1 0 1000 30 "R1" ""
    ⟨execPE0, by simp [c4State], by simp [execPE0]⟩

/-- Counterexample for claim C6: on an invoice whose actual_exchange_rate is
0, the code books fx_variance with the falsy-fallback rate 1.0, so the
stored variance 10 differs from the claimed
(exchange_rate - actual_exchange_rate) * amount_paid = 20. -/
theorem c6_fx_variance_counterexample :
    (record_payment c6cxState "INV-0" 1 0 10 2 "R2" "").map
      (fun p => p.1.executions.map PaymentExecution.fx_variance) = .ok [10] ∧
    (10 : ℚ) ≠ (2 - invINV0.actual_exchange_rate) * 10 := by
  constructor
  · simp [record_payment, c6cxState, invINV0, mkIdempotencyKey,
      sync_invoice_status, updateInvoice, mkInstallment, Except.map]
    norm_num
  · simp [invINV0]

/-- Claim C6 as amended: the stored fx_variance of a recorded payment equals
(exchange_rate - r) * amount_paid where r is the invoice actual_exchange_rate
with an unset or zero rate treated as 1.0; the Payment Execution carrying it
is appended to the store. -/
theorem c6_fx_variance_formula (st : PayState) (invoice : String)
    (inv_doc : Invoice) (installment_no : Nat) (payment_date : Int)
    (amount_paid exchange_rate : ℚ) (remref bankref : String)
    (hinv : st.invoices invoice = some inv_doc)
    (hnodup : st.executions.any (fun ex => decide (ex.idempotency_key =
      mkIdempotencyKey invoice installment_no remref)) = false) :
    (record_payment st invoice installment_no payment_date amount_paid
        exchange_rate remref bankref).map (fun p => (p.1.executions, p.2)) =
      .ok (st.executions ++
        [⟨"PE-" ++ toString st.executions.length, invoice, installment_no,
          payment_date, amount_paid, exchange_rate, remref, bankref,
          (exchange_rate -
            effectiveInvoiceRate inv_doc.actual_exchange_rate) * amount_paid,
          mkIdempotencyKey invoice installment_no remref⟩],
        "PE-" ++ toString st.executions.length) := by
  simp [record_payment, hinv, hnodup, sync_invoice_status, updateInvoice,
    Except.map, effectiveInvoiceRate]

/-- Witness for claim C6: a payment of 1000 at rate 31.5 against invoice
rate 30.0 stores fx_variance 1500. -/
theorem c6_fx_variance_formula_witness :
    ∃ p, record_payment c6State "INV-1" 1 0 1000 (63 / 2) "R1" "" = .ok p ∧
      p.1.executions.map PaymentExecution.fx_variance = [1500] ∧
      p.2 = "PE-0" := by
  have h := c6_fx_variance_formula c6State "INV-1" invINV1
    1 0 1000 (63 / 2) "R1" "" (by simp [c6State]) (by simp [c6State])
  cases hr : record_payment c6State "INV-1" 1 0 1000 (63 / 2) "R1" "" with
  | error e => rw [hr] at h; simp [Except.map] at h
  | ok p =>
    rw [hr] at h
    simp only [Except.map, Except.ok.injEq, Prod.ext_iff] at h
    obtain ⟨hexecs, hname⟩ := h
    refine ⟨p, rfl, ?_, hname⟩
    rw [hexecs]
    simp [c6State, invINV1, effectiveInvoiceRate]
    norm_num

/-- Counterexample for claim C5: generate_schedule on an invoice whose
payment_schedule is already populated does not leave the rows as they were —
the Paid row of c5Invoice is replaced by a fresh Pending row. -/
theorem c5_generate_schedule_not_noop :
    (generate_payment_schedule c5Invoice).payment_schedule ≠
      c5Invoice.payment_schedule := by
  simp [generate_payment_schedule, c5Invoice, termScheduleRows, mkInstallment]

/-- Claim C5 as amended: generate_payment_schedule is a no-op only when
payment_terms is unset; with payment_terms set it replaces any existing
schedule by the rows of the fixed term table, independently of the prior
rows.  The generate-once idempotency is enforced by the Invoice.validate
caller, which skips generation whenever the schedule is populated. -/
theorem c5_generate_schedule_regenerates (inv : Invoice) (is_new : Bool) :
    (inv.payment_terms = none → generate_payment_schedule inv = inv) ∧
    (∀ t, inv.payment_terms = some t →
      generate_payment_schedule inv =
        { inv with payment_schedule :=
            termScheduleRows t inv.invoice_date inv.total_amount } ∧
      generate_payment_schedule inv =
        generate_payment_schedule { inv with payment_schedule := [] }) ∧
    (inv.payment_schedule ≠ [] → invoice_validate_autogen inv is_new = inv) := by
  refine ⟨fun hnone => ?_, fun t ht => ?_, fun hne => ?_⟩
  · simp [generate_payment_schedule, hnone]
  · exact ⟨by simp [generate_payment_schedule, ht],
      by simp [generate_payment_schedule, ht]⟩
  · simp [invoice_validate_autogen, hne]

/-- Witness for claim C5 as amended, at the populated invoice of the
counterexample: the caller-level guard skips it, and regeneration ignores
the prior rows. -/
theorem c5_generate_schedule_regenerates_witness :
    invoice_validate_autogen c5Invoice false = c5Invoice ∧
    generate_payment_schedule c5Invoice =
      generate_payment_schedule { c5Invoice with payment_schedule := [] } := by
  exact ⟨(c5_generate_schedule_regenerates c5Invoice false).2.2
      (by simp [c5Invoice]),
    ((c5_generate_schedule_regenerates c5Invoice false).2.1
      PaymentTerms.Immediate rfl).2⟩

/-- Claim C8: process_receipt on a shipment whose receipt_processed flag is
set returns success with already_existed true and performs no writes — the
store (stocks, gaps, PO received quantities) is returned unchanged. -/
theorem c8_process_receipt_idempotent
    (handler : String → String → List OverReceiptItem →
      Except String OverReceiptResult)
    (st : InvState) (shipment_id : String) (sh : Shipment)
    (gap_deadline_days today : Int)
    (hsh : st.shipments shipment_id = some sh)
    (hproc : sh.receipt_processed = true) :
    process_receipt handler st shipment_id gap_deadline_days today =
      .ok (st, build_already_processed_result) ∧
    build_already_processed_result.success = true ∧
    build_already_processed_result.already_existed = true := by
  refine ⟨?_, rfl, rfl⟩
  simp [process_receipt, hsh, hproc]

/-- Witness for claim C8 at a concrete store with one processed shipment. -/
theorem c8_process_receipt_idempotent_witness :
    process_receipt (fun _ _ _ => .ok ⟨true⟩)
      { emptyInvState with shipments := fun n =>
          if n = "SH-9" then some ⟨"SH-9", true, true, 1, 1, []⟩ else none }
      "SH-9" 30 0 =
      .ok ({ emptyInvState with shipments := fun n =>
          if n = "SH-9" then some ⟨"SH-9", true, true, 1, 1, []⟩ else none },
        build_already_processed_result) := by
  exact (c8_process_receipt_idempotent (fun _ _ _ => .ok ⟨true⟩)
    { emptyInvState with shipments := fun n =>
        if n = "SH-9" then some ⟨"SH-9", true, true, 1, 1, []⟩ else none }
    "SH-9" ⟨"SH-9", true, true, 1, 1, []⟩ 30 0 (by simp) rfl).1

/-- Claim C9: with a positive requested quantity, reserve_stock rejects a
request exceeding the available physical stock (total minus Active
reservations) with a validation error and no write; within availability it
creates exactly one Active reservation with reserved_physical equal to the
request and reserved_declared capped at the available declared stock. -/
theorem c9_reserve_stock (st : InvState) (item sales_order : String)
    (qty : ℚ) (hq : 0 < qty) :
    ∀ s, get_available_stock st item = .ok s →
      (s.available_physical < qty →
        (∃ e, reserve_stock st item sales_order qty = .error e) ∧
        reserve_stock_tx st item sales_order qty = st) ∧
      (qty ≤ s.available_physical →
        reserve_stock st item sales_order qty =
          .ok ({ st with reservations := st.reservations ++
              [⟨"RES-" ++ toString st.reservations.length, item, sales_order,
                qty, min qty s.available_declared,
                ReservationStatus.Active⟩] },
            s.available_physical - qty)) := by
  intro s hs
  constructor
  · intro hover
    have herr : reserve_stock st item sales_order qty =
        .error "Insufficient stock" := by
      simp [reserve_stock, not_le.mpr hq, hs, hover]
    exact ⟨⟨"Insufficient stock", herr⟩, by simp [reserve_stock_tx, herr]⟩
  · intro hfits
    simp [reserve_stock, not_le.mpr hq, hs, not_lt.mpr hfits]

/-- Witness for claim C9 at a concrete store: total physical 10 with 3
actively reserved leaves 7 available; requesting 8 fails with no write,
requesting 5 creates one Active reservation of 5 physical and 2 declared
(capped by the available declared stock). -/
theorem c9_reserve_stock_witness :
    (∃ e, reserve_stock
        { emptyInvState with
          items := fun n => if n = "ITEM-A" then some ⟨10, 4, none⟩ else none,
          reservations :=
            [⟨"RES-0", "ITEM-A", "SO-0", 3, 2, ReservationStatus.Active⟩] }
        "ITEM-A" "SO-1" 8 = .error e) ∧
    (∃ p, reserve_stock
        { emptyInvState with
          items := fun n => if n = "ITEM-A" then some ⟨10, 4, none⟩ else none,
          reservations :=
            [⟨"RES-0", "ITEM-A", "SO-0", 3, 2, ReservationStatus.Active⟩] }
        "ITEM-A" "SO-1" 5 = .ok p ∧
      p.1.reservations =
        [⟨"RES-0", "ITEM-A", "SO-0", 3, 2, ReservationStatus.Active⟩,
         ⟨"RES-1", "ITEM-A", "SO-1", 5, 2, ReservationStatus.Active⟩] ∧
      p.2 = 2) := by
  have havail : get_available_stock
      { emptyInvState with
        items := fun n => if n = "ITEM-A" then some ⟨10, 4, none⟩ else none,
        reservations :=
          [⟨"RES-0", "ITEM-A", "SO-0", 3, 2, ReservationStatus.Active⟩] }
      "ITEM-A" = .ok ⟨10, 4, 3, 2, 7, 2⟩ := by
    simp [get_available_stock]
    norm_num
  constructor
  · exact ((c9_reserve_stock _ "ITEM-A" "SO-1" 8 (by norm_num) _ havail).1
      (by norm_num)).1
  · have h := (c9_reserve_stock _ "ITEM-A" "SO-1" 5 (by norm_num) _ havail).2
      (by norm_num)
    refine ⟨_, h, ?_, by norm_num⟩
    simp [emptyInvState]
    exact ⟨by decide, by norm_num⟩

/-- Claim C2: one shipment line of quantity q processed by the receipt
transaction.  Formal: both stock tracks increase by q and no gap is created.
Informal: only physical stock increases by q and exactly one gap is created
with gap_qty q, resolved_qty 0, status Pending, the classification key of
the item, and deadline today plus the configured gap-deadline-days.  In both
cases the PO line received_qty is incremented by q.  process_receipt passes
deadline := today + gap_deadline_days to this per-line step. -/
theorem c2_receipt_line_dual_track (sh : Shipment) (shipment_id : String)
    (today gap_deadline_days : Int) (st : InvState) (l : ShipmentLine)
    (it : Item) (hit : st.items l.item = some it)
    (hp : 0 ≤ it.stock_physical) (hd : 0 ≤ it.stock_declared)
    (hq : 0 < l.quantity) :
    (sh.is_formal = true →
      ∃ st2, process_receipt_line sh shipment_id
          (today + gap_deadline_days) st l = .ok st2 ∧
        st2.items l.item = some ⟨it.stock_physical + l.quantity,
          it.stock_declared + l.quantity, it.customs_name⟩ ∧
        st2.gaps = st.gaps ∧
        st2.poReceived l.po l.item = st.poReceived l.po l.item + l.quantity) ∧
    (∀ cn, sh.is_formal = false → it.customs_name = some cn →
      ∃ st2, process_receipt_line sh shipment_id
          (today + gap_deadline_days) st l = .ok st2 ∧
        st2.items l.item = some ⟨it.stock_physical + l.quantity,
          it.stock_declared, it.customs_name⟩ ∧
        st2.gaps = st.gaps ++
          [⟨"GAP-" ++ toString st.gaps.length, l.item, shipment_id, l.po, cn,
            l.quantity, 0, GapStatus.Pending, today + gap_deadline_days, "",
            st.gaps.length⟩] ∧
        st2.poReceived l.po l.item = st.poReceived l.po l.item + l.quantity) := by
  constructor
  · intro hformal
    have hstep := update_stock_atomic_ok_eq st l.item it l.quantity l.quantity
      hit (add_nonneg hp hq.le) (add_nonneg hd hq.le)
    have hrun : process_receipt_line sh shipment_id
        (today + gap_deadline_days) st l =
        .ok (increment_received_qty (setItem st l.item ⟨it.stock_physical +
          l.quantity, it.stock_declared + l.quantity, it.customs_name⟩)
          l.po l.item l.quantity) := by
      simp only [process_receipt_line, hformal, if_true, hstep]
    refine ⟨_, hrun, ?_, ?_, ?_⟩
    · simp [setItem, increment_received_qty]
    · simp [setItem, increment_received_qty]
    · simp [setItem, increment_received_qty]
  · intro cn hinformal hcn
    have hstep := update_stock_atomic_ok_eq st l.item it l.quantity 0
      hit (add_nonneg hp hq.le) (by simpa using hd)
    have hcn2 : resolve_customs_name (setItem st l.item ⟨it.stock_physical +
        l.quantity, it.stock_declared + 0, it.customs_name⟩) l.item =
        some cn := by
      simp [resolve_customs_name, setItem, hcn]
    have hrun : process_receipt_line sh shipment_id
        (today + gap_deadline_days) st l =
        .ok (increment_received_qty (create_gap (setItem st l.item
            ⟨it.stock_physical + l.quantity, it.stock_declared + 0,
              it.customs_name⟩) l.item shipment_id l.po cn l.quantity
            (today + gap_deadline_days)) l.po l.item l.quantity) := by
      simp only [process_receipt_line, hinformal, Bool.false_eq_true,
        if_false, hstep, hcn2]
    refine ⟨_, hrun, ?_, ?_, ?_⟩
    · simp [setItem, increment_received_qty, create_gap, add_zero]
    · simp [setItem, increment_received_qty, create_gap]
    · simp [setItem, increment_received_qty, create_gap]

/-- Witness for claim C2 at a concrete store: a formal receipt of quantity
10 lands 10 on both tracks with no gap; an informal receipt of quantity 10
lands 10 physically only and opens one Pending gap of 10 under the item
classification key with deadline 0 + 30. -/
theorem c2_receipt_line_dual_track_witness :
    (∃ st2, process_receipt_line ⟨"SH-1", true, false, 1, 30,
        [⟨"ITEM-A", 10, "PO-1"⟩]⟩ "SH-1" (0 + 30)
        { emptyInvState with
          items := fun n => if n = "ITEM-A" then some ⟨0, 0, some "CN-1"⟩
            else none }
        ⟨"ITEM-A", 10, "PO-1"⟩ = .ok st2 ∧
      st2.items "ITEM-A" = some ⟨10, 10, some "CN-1"⟩ ∧
      st2.gaps = [] ∧ st2.poReceived "PO-1" "ITEM-A" = 10) ∧
    (∃ st2, process_receipt_line ⟨"SH-2", false, false, 1, 0,
        [⟨"ITEM-A", 10, "PO-1"⟩]⟩ "SH-2" (0 + 30)
        { emptyInvState with
          items := fun n => if n = "ITEM-A" then some ⟨0, 0, some "CN-1"⟩
            else none }
        ⟨"ITEM-A", 10, "PO-1"⟩ = .ok st2 ∧
      st2.items "ITEM-A" = some ⟨10, 0, some "CN-1"⟩ ∧
      st2.gaps = [⟨"GAP-0", "ITEM-A", "SH-2", "PO-1", "CN-1", 10, 0,
        GapStatus.Pending, 0 + 30, "", 0⟩] ∧
      st2.poReceived "PO-1" "ITEM-A" = 10) := by
  constructor
  · obtain ⟨st2, hrun, hitem, hgaps, hrecv⟩ :=
      (c2_receipt_line_dual_track ⟨"SH-1", true, false, 1, 30,
        [⟨"ITEM-A", 10, "PO-1"⟩]⟩ "SH-1" 0 30
        { emptyInvState with
          items := fun n => if n = "ITEM-A" then some ⟨0, 0, some "CN-1"⟩
            else none }
        ⟨"ITEM-A", 10, "PO-1"⟩ ⟨0, 0, some "CN-1"⟩ (by simp) (by norm_num)
        (by norm_num) (by norm_num)).1 rfl
    refine ⟨st2, hrun, ?_, by simpa using hgaps, ?_⟩
    · rw [hitem]; norm_num
    · rw [hrecv]; norm_num [emptyInvState]
  · obtain ⟨st2, hrun, hitem, hgaps, hrecv⟩ :=
      ((c2_receipt_line_dual_track ⟨"SH-2", false, false, 1, 0,
        [⟨"ITEM-A", 10, "PO-1"⟩]⟩ "SH-2" 0 30
        { emptyInvState with
          items := fun n => if n = "ITEM-A" then some ⟨0, 0, some "CN-1"⟩
            else none }
        ⟨"ITEM-A", 10, "PO-1"⟩ ⟨0, 0, some "CN-1"⟩ (by simp) (by norm_num)
        (by norm_num) (by norm_num)).2 "CN-1" rfl rfl)
    refine ⟨st2, hrun, ?_, by simpa using hgaps, ?_⟩
    · rw [hitem]; norm_num
    · rw [hrecv]; norm_num [emptyInvState]

/-- The remaining quantity returned by the FIFO loop equals the declaration
minus the total of the consumed quantities. -/
theorem consume_gaps_calls_snd (gaps : List Gap) (r : ℚ) :
    (consume_gaps_calls gaps r).2 =
      r - ((consume_gaps_calls gaps r).1.map GapUpdate.qty).sum := by
  induction gaps generalizing r with
  | nil => simp [consume_gaps_calls]
  | cons g rest ih =>
    by_cases hr : r ≤ 0
    · simp [consume_gaps_calls, hr]
    · by_cases hg : g.gap_qty - g.resolved_qty ≤ 0
      · simpa [consume_gaps_calls, hr, hg] using ih r
      · have heq := ih (r - min (g.gap_qty - g.resolved_qty) r)
        simp only [consume_gaps_calls, if_neg hr, if_neg hg, List.map_cons,
          List.sum_cons]
        rw [heq]
        ring

/-- Every call of the FIFO loop corresponds to a listed gap row, consumes a
positive quantity, and never pushes resolved_qty past gap_qty. -/
theorem consume_gaps_calls_bound (gaps : List Gap) (r : ℚ)
    (hinv : ∀ g ∈ gaps, g.resolved_qty ≤ g.gap_qty) :
    ∀ u ∈ (consume_gaps_calls gaps r).1, ∃ g ∈ gaps,
      u.gap = g.name ∧ u.product = g.product ∧ 0 < u.qty ∧
      g.resolved_qty + u.qty ≤ g.gap_qty := by
  induction gaps generalizing r with
  | nil => simp [consume_gaps_calls]
  | cons g rest ih =>
    intro u hu
    by_cases hr : r ≤ 0
    · simp [consume_gaps_calls, hr] at hu
    · by_cases hg : g.gap_qty - g.resolved_qty ≤ 0
      · simp only [consume_gaps_calls, if_neg hr, if_pos hg] at hu
        obtain ⟨g2, hg2, hprops⟩ :=
          ih r (fun x hx => hinv x (List.mem_cons_of_mem g hx)) u hu
        exact ⟨g2, List.mem_cons_of_mem g hg2, hprops⟩
      · simp only [consume_gaps_calls, if_neg hr, if_neg hg,
          List.mem_cons] at hu
        rcases hu with rfl | hu
        · refine ⟨g, List.mem_cons_self g rest, rfl, rfl, ?_, ?_⟩
          · exact lt_min (by linarith [not_le.mp hg]) (not_le.mp hr)
          · have h1 : min (g.gap_qty - g.resolved_qty) r ≤
                g.gap_qty - g.resolved_qty := min_le_left _ _
            linarith
        · obtain ⟨g2, hg2, hprops⟩ :=
            ih (r - min (g.gap_qty - g.resolved_qty) r)
              (fun x hx => hinv x (List.mem_cons_of_mem g hx)) u hu
          exact ⟨g2, List.mem_cons_of_mem g hg2, hprops⟩

/-- The gap names consumed by the FIFO loop form a subsequence of the listed
gap names. -/
theorem consume_gaps_calls_names_sublist (gaps : List Gap) (r : ℚ) :
    List.Sublist ((consume_gaps_calls gaps r).1.map GapUpdate.gap)
      (gaps.map Gap.name) := by
  induction gaps generalizing r with
  | nil => simp [consume_gaps_calls]
  | cons g rest ih =>
    by_cases hr : r ≤ 0
    · simp [consume_gaps_calls, hr]
    · by_cases hg : g.gap_qty - g.resolved_qty ≤ 0
      · simp only [consume_gaps_calls, if_neg hr, if_pos hg, List.map_cons]
        exact List.Sublist.cons _ (ih r)
      · simp only [consume_gaps_calls, if_neg hr, if_neg hg, List.map_cons]
        exact List.Sublist.cons₂ _ (ih _)

/-- One unfolding step of the spec-side FIFO call list. -/
theorem specFifoCalls_cons (g : Gap) (rest : List Gap) (r : ℚ) :
    specFifoCalls (g :: rest) r =
      (if 0 < min (g.gap_qty - g.resolved_qty) r then
        [⟨g.name, g.product, min (g.gap_qty - g.resolved_qty) r,
          if g.resolved_qty + min (g.gap_qty - g.resolved_qty) r =
              g.gap_qty then GapStatus.Resolved else GapStatus.Partial⟩]
      else []) ++
        specFifoCalls rest (r - min (g.gap_qty - g.resolved_qty) r) := by
  by_cases hpos : 0 < min (g.gap_qty - g.resolved_qty) r
  · simp [specFifoCalls, fifoDeltas, hpos]
  · simp [specFifoCalls, fifoDeltas, hpos]

/-- With open gaps, a zero remaining declaration produces no spec-side
calls. -/
theorem specFifoCalls_zero (gaps : List Gap)
    (hopen : ∀ g ∈ gaps, g.resolved_qty < g.gap_qty) :
    specFifoCalls gaps 0 = [] := by
  induction gaps with
  | nil => simp [specFifoCalls]
  | cons g rest ih =>
    have hg : 0 < g.gap_qty - g.resolved_qty :=
      sub_pos.mpr (hopen g (List.mem_cons_self g rest))
    have hmin : min (g.gap_qty - g.resolved_qty) (0 : ℚ) = 0 :=
      min_eq_right hg.le
    rw [specFifoCalls_cons, hmin]
    simp only [lt_irrefl, if_false, List.nil_append, sub_zero]
    exact ih (fun x hx => hopen x (List.mem_cons_of_mem g hx))

/-- The spec-side FIFO deltas are non-negative. -/
theorem fifoDeltas_nonneg (gaps : List Gap) (r : ℚ) (hr : 0 ≤ r)
    (hopen : ∀ g ∈ gaps, g.resolved_qty < g.gap_qty) :
    ∀ d ∈ fifoDeltas gaps r, 0 ≤ d := by
  induction gaps generalizing r with
  | nil => simp [fifoDeltas]
  | cons g rest ih =>
    intro d hd
    have hg : 0 < g.gap_qty - g.resolved_qty :=
      sub_pos.mpr (hopen g (List.mem_cons_self g rest))
    simp only [fifoDeltas, List.mem_cons] at hd
    rcases hd with rfl | hd
    · exact le_min hg.le hr
    · exact ih (r - min (g.gap_qty - g.resolved_qty) r)
        (by simp [sub_nonneg, min_le_right])
        (fun x hx => hopen x (List.mem_cons_of_mem g hx)) d hd

/-- Algebra of one FIFO step: consuming min a c and then at most the open
remainder b of the rest consumes min (a + b) c in total. -/
theorem min_consume_eq (a b c : ℚ) (hb : 0 ≤ b) (hc : 0 ≤ c) :
    min a c + min b (c - min a c) = min (a + b) c := by
  rcases le_total a c with h | h
  · rw [min_eq_left h]
    rcases le_total b (c - a) with h2 | h2
    · rw [min_eq_left h2, min_eq_left (by linarith)]
    · rw [min_eq_right h2, min_eq_right (by linarith)]
      ring
  · rw [min_eq_right h]
    have h0 : c - c = 0 := by ring
    rw [h0, min_eq_right hb, min_eq_right (by linarith)]
    ring

/-- The spec-side FIFO deltas sum to the smaller of the total open quantity
and the declaration. -/
theorem fifoDeltas_sum (gaps : List Gap) (r : ℚ) (hr : 0 ≤ r)
    (hopen : ∀ g ∈ gaps, g.resolved_qty < g.gap_qty) :
    (fifoDeltas gaps r).sum = min (totalOpen gaps) r := by
  induction gaps generalizing r with
  | nil => simp [fifoDeltas, totalOpen, min_eq_left hr]
  | cons g rest ih =>
    have hg : 0 < g.gap_qty - g.resolved_qty :=
      sub_pos.mpr (hopen g (List.mem_cons_self g rest))
    have hTO : 0 ≤ totalOpen rest := by
      refine List.sum_nonneg ?_
      intro x hx
      simp only [List.mem_map] at hx
      obtain ⟨g2, hg2, rfl⟩ := hx
      exact (sub_pos.mpr (hopen g2 (List.mem_cons_of_mem g hg2))).le
    have hrec := ih (r - min (g.gap_qty - g.resolved_qty) r)
      (by simp [sub_nonneg, min_le_right])
      (fun x hx => hopen x (List.mem_cons_of_mem g hx))
    have hTOcons : totalOpen (g :: rest) =
        (g.gap_qty - g.resolved_qty) + totalOpen rest := by
      simp [totalOpen]
    simp only [fifoDeltas, List.sum_cons, hrec, hTOcons]
    exact min_consume_eq (g.gap_qty - g.resolved_qty) (totalOpen rest) r hTO hr

/-- The quantities of the spec-side calls sum to the sum of the FIFO
deltas: only zero deltas are dropped. -/
theorem specFifoCalls_sum (gaps : List Gap) (r : ℚ) (hr : 0 ≤ r)
    (hopen : ∀ g ∈ gaps, g.resolved_qty < g.gap_qty) :
    ((specFifoCalls gaps r).map GapUpdate.qty).sum = (fifoDeltas gaps r).sum := by
  induction gaps generalizing r with
  | nil => simp [specFifoCalls, fifoDeltas]
  | cons g rest ih =>
    have hg : 0 < g.gap_qty - g.resolved_qty :=
      sub_pos.mpr (hopen g (List.mem_cons_self g rest))
    have hrec := ih (r - min (g.gap_qty - g.resolved_qty) r)
      (by simp [sub_nonneg, min_le_right])
      (fun x hx => hopen x (List.mem_cons_of_mem g hx))
    rw [specFifoCalls_cons]
    by_cases hpos : 0 < min (g.gap_qty - g.resolved_qty) r
    · simp only [if_pos hpos, List.singleton_append, List.map_cons,
        List.sum_cons, hrec, fifoDeltas, List.sum_cons]
    · have hzero : min (g.gap_qty - g.resolved_qty) r = 0 :=
        le_antisymm (not_lt.mp hpos) (le_min hg.le hr)
      rw [hzero] at hrec
      simp only [if_neg hpos, List.nil_append, fifoDeltas, hzero,
        List.sum_cons, zero_add]
      simpa using hrec

/-- The FIFO loop issues exactly the spec-side calls: each open gap in
creation order is consumed by the minimum of its open remainder and the
remaining declaration, and is marked Resolved exactly when full. -/
theorem consume_gaps_calls_fst_spec (gaps : List Gap) (r : ℚ) (hr : 0 ≤ r)
    (hopen : ∀ g ∈ gaps, g.resolved_qty < g.gap_qty) :
    (consume_gaps_calls gaps r).1 = specFifoCalls gaps r := by
  induction gaps generalizing r with
  | nil => simp [consume_gaps_calls, specFifoCalls]
  | cons g rest ih =>
    have hg : 0 < g.gap_qty - g.resolved_qty :=
      sub_pos.mpr (hopen g (List.mem_cons_self g rest))
    have hopen2 : ∀ x ∈ rest, x.resolved_qty < x.gap_qty :=
      fun x hx => hopen x (List.mem_cons_of_mem g hx)
    by_cases hr0 : r ≤ 0
    · have hr00 : r = 0 := le_antisymm hr0 hr
      subst hr00
      rw [specFifoCalls_zero (g :: rest) hopen]
      simp [consume_gaps_calls]
    · have hrpos : 0 < r := not_le.mp hr0
      have ht : 0 < min (g.gap_qty - g.resolved_qty) r := lt_min hg hrpos
      have htle : min (g.gap_qty - g.resolved_qty) r ≤
          g.gap_qty - g.resolved_qty := min_le_left _ _
      have hstat : (g.resolved_qty + min (g.gap_qty - g.resolved_qty) r ≥
          g.gap_qty) ↔
          (g.resolved_qty + min (g.gap_qty - g.resolved_qty) r =
          g.gap_qty) := by
        constructor
        · intro hge
          have : g.resolved_qty + min (g.gap_qty - g.resolved_qty) r ≤
              g.gap_qty := by linarith
          linarith
        · intro heq
          exact heq.ge
      rw [specFifoCalls_cons]
      simp only [consume_gaps_calls, if_neg hr0, if_neg (not_le.mpr hg),
        if_pos ht, List.singleton_append]
      refine List.cons_eq_cons.mpr ⟨?_, ?_⟩
      · simp only [GapUpdate.mk.injEq, true_and, and_true]
        exact if_congr hstat rfl rfl
      · exact ih (r - min (g.gap_qty - g.resolved_qty) r)
          (by simp [sub_nonneg, min_le_right]) hopen2

/-- Claim C1: FIFO gap resolution.  General part: for open gaps in creation
order and a positive declaration d, the loop consumes each gap in order by
min(open remainder, remaining declaration), marks it Resolved exactly when
resolved_qty reaches gap_qty (else Partial), returns remaining_qty equal to
d minus the total consumed, and that remainder is positive exactly when d
exceeds the total open quantity.  Concrete parts: gaps G1(5) then G2(5)
under one key with declaration 7 end Resolved(+5) and Partial(+2) with
remaining 0; a single gap of 5 with declaration 15 leaves remaining 10. -/
theorem c1_resolve_gaps_fifo :
    (∀ (gaps : List Gap) (d : ℚ), 0 < d →
      (∀ g ∈ gaps, g.resolved_qty < g.gap_qty) →
      (consume_gaps_calls gaps d).1 = specFifoCalls gaps d ∧
      (consume_gaps_calls gaps d).2 =
        d - ((consume_gaps_calls gaps d).1.map GapUpdate.qty).sum ∧
      (0 < (consume_gaps_calls gaps d).2 ↔ totalOpen gaps < d)) ∧
    ((resolve_gaps c1StateA "CN-1" 7 "DECL-1").map
      (fun p => (p.1.gaps, p.1.items "ITEM-A", p.1.items "ITEM-B", p.2)) =
      .ok ([⟨"G2", "ITEM-B", "SH-1", "PO-1", "CN-1", 5, 2,
              GapStatus.Partial, 100, "DECL-1", 2⟩,
            ⟨"G1", "ITEM-A", "SH-1", "PO-1", "CN-1", 5, 5,
              GapStatus.Resolved, 100, "DECL-1", 1⟩],
           some ⟨0, 5, some "CN-1"⟩, some ⟨0, 2, some "CN-1"⟩,
           ⟨2, 0, ["G1", "G2"]⟩)) ∧
    ((resolve_gaps c1StateB "CN-1" 15 "DECL-2").map
      (fun p => (p.2.remaining_qty, p.1.gaps)) =
      .ok (10, [⟨"G3", "ITEM-A", "SH-1", "PO-1", "CN-1", 5, 5,
        GapStatus.Resolved, 100, "DECL-2", 1⟩])) := by
  refine ⟨?_, ?_, ?_⟩
  · intro gaps d hd hopen
    have hspec := consume_gaps_calls_fst_spec gaps d hd.le hopen
    have hsnd := consume_gaps_calls_snd gaps d
    refine ⟨hspec, hsnd, ?_⟩
    rw [hsnd, hspec, specFifoCalls_sum gaps d hd.le hopen,
      fifoDeltas_sum gaps d hd.le hopen]
    constructor
    · intro hpos
      have : min (totalOpen gaps) d < d := by linarith
      rcases min_lt_iff.mp this with h | h
      · exact h
      · exact absurd h (lt_irrefl d)
    · intro hlt
      rw [min_eq_left hlt.le]
      linarith
  · norm_num [resolve_gaps, consume_gaps, get_pending_gaps_for_update,
      List.insertionSort, List.orderedInsert, consume_gaps_calls,
      applyGapUpdates, update_gap_resolved, itemDeltas, addDelta,
      applyStockDeltas, update_stock_atomic, setItem, emptyInvState,
      c1StateA, c1Items, gapG1, gapG2, Except.map, min_def]
    all_goals try simp
    all_goals try norm_num
    all_goals try simp
  · norm_num [resolve_gaps, consume_gaps, get_pending_gaps_for_update,
      List.insertionSort, List.orderedInsert, consume_gaps_calls,
      applyGapUpdates, update_gap_resolved, itemDeltas, addDelta,
      applyStockDeltas, update_stock_atomic, setItem, emptyInvState,
      c1StateB, c1Items, gapG3, Except.map, min_def]

/-- Witness for the general part of claim C1 at the two-gap example rows. -/
theorem c1_resolve_gaps_fifo_witness :
    (consume_gaps_calls [gapG1, gapG2] 7).1 = specFifoCalls [gapG1, gapG2] 7 ∧
    (consume_gaps_calls [gapG1, gapG2] 7).2 =
      7 - ((consume_gaps_calls [gapG1, gapG2] 7).1.map GapUpdate.qty).sum ∧
    (0 < (consume_gaps_calls [gapG1, gapG2] 7).2 ↔
      totalOpen [gapG1, gapG2] < 7) := by
  exact c1_resolve_gaps_fifo.1 [gapG1, gapG2] 7 (by norm_num)
    (by
      intro g hg
      simp only [List.mem_cons, List.not_mem_nil, or_false] at hg
      rcases hg with rfl | rfl <;> norm_num [gapG1, gapG2])

/-- addDelta adds its quantity to the total of the accumulated delta map. -/
theorem addDelta_sum (m : List (String × ℚ)) (p : String) (q : ℚ) :
    ((addDelta m p q).map Prod.snd).sum = (m.map Prod.snd).sum + q := by
  induction m with
  | nil => simp [addDelta]
  | cons kv rest ih =>
    obtain ⟨k, v⟩ := kv
    by_cases hk : k = p
    · simp only [addDelta, if_pos hk, List.map_cons, List.sum_cons]
      ring
    · simp only [addDelta, if_neg hk, List.map_cons, List.sum_cons, ih]
      ring

/-- The accumulated per-product delta map totals the consumed quantities. -/
theorem itemDeltas_go_sum (ups : List GapUpdate) :
    ∀ m : List (String × ℚ),
      ((ups.foldl (fun m2 u => addDelta m2 u.product u.qty) m).map
        Prod.snd).sum = (m.map Prod.snd).sum + (ups.map GapUpdate.qty).sum := by
  induction ups with
  | nil => intro m; simp
  | cons u rest ih =>
    intro m
    simp only [List.foldl_cons, List.map_cons, List.sum_cons]
    rw [ih (addDelta m u.product u.qty), addDelta_sum]
    ring

/-- The per-product declared deltas sum to the consumed total. -/
theorem itemDeltas_sum (ups : List GapUpdate) :
    ((itemDeltas ups).map Prod.snd).sum = (ups.map GapUpdate.qty).sum := by
  simpa using itemDeltas_go_sum ups []

/-- Sorting the delta list for lock ordering does not change its total. -/
theorem sorted_deltas_sum (l : List (String × ℚ)) :
    ((List.insertionSort (fun a b => a.1 ≤ b.1) l).map Prod.snd).sum =
      (l.map Prod.snd).sum :=
  List.Perm.sum_eq ((List.perm_insertionSort _ l).map Prod.snd)

/-- update_gap_resolved changes no gap names. -/
theorem update_gap_resolved_names (st : InvState) (n : String) (q : ℚ)
    (s : GapStatus) (ref : String) :
    (update_gap_resolved st n q s ref).gaps.map Gap.name =
      st.gaps.map Gap.name := by
  simp only [update_gap_resolved, List.map_map]
  refine List.map_congr_left ?_
  intro g _
  by_cases h : g.name = n <;> simp [h]

/-- A successful atomic stock update leaves the gap store untouched. -/
theorem update_stock_atomic_gaps (st : InvState) (i : String) (pd dd : ℚ)
    (st1 : InvState) (h : update_stock_atomic st i pd dd = .ok st1) :
    st1.gaps = st.gaps := by
  by_cases hz : pd = 0 ∧ dd = 0
  · simp only [update_stock_atomic, if_pos hz] at h
    injection h with h2
    rw [← h2]
  · simp only [update_stock_atomic, if_neg hz] at h
    cases hitems : st.items i with
    | none =>
      rw [hitems] at h
      injection h with h2
      rw [← h2]
    | some it =>
      rw [hitems] at h
      simp only at h
      by_cases h1 : it.stock_physical + pd < 0
      · rw [if_pos h1] at h
        exact absurd h (by simp)
      · rw [if_neg h1] at h
        by_cases h2 : it.stock_declared + dd < 0
        · rw [if_pos h2] at h
          exact absurd h (by simp)
        · rw [if_neg h2] at h
          injection h with h3
          rw [← h3]
          rfl

/-- A successful ledger-delta fold leaves the gap store untouched. -/
theorem applyStockDeltas_gaps : ∀ (ds : List (String × ℚ))
    (st st2 : InvState), applyStockDeltas st ds = .ok st2 →
    st2.gaps = st.gaps := by
  intro ds
  induction ds with
  | nil =>
    intro st st2 h
    simp only [applyStockDeltas] at h
    injection h with h2
    rw [← h2]
  | cons kv rest ih =>
    intro st st2 h
    obtain ⟨k, v⟩ := kv
    simp only [applyStockDeltas] at h
    cases hu : update_stock_atomic st k 0 v with
    | error e => rw [hu] at h; simp at h
    | ok stm =>
      rw [hu] at h
      rw [ih stm st2 h, update_stock_atomic_gaps st k 0 v stm hu]

/-- Applying disjointly-named bounded gap updates preserves the invariant
that no resolved quantity exceeds its gap quantity. -/
theorem applyGapUpdates_preserves (ref : String) :
    ∀ (ups : List GapUpdate) (st : InvState),
      (st.gaps.map Gap.name).Nodup →
      (∀ g ∈ st.gaps, g.resolved_qty ≤ g.gap_qty) →
      ((ups.map GapUpdate.gap).Nodup) →
      (∀ u ∈ ups, ∀ g ∈ st.gaps, g.name = u.gap →
        g.resolved_qty + u.qty ≤ g.gap_qty) →
      ∀ g ∈ (applyGapUpdates st ups ref).gaps,
        g.resolved_qty ≤ g.gap_qty := by
  intro ups
  induction ups with
  | nil =>
    intro st _ hinv _ _
    simpa [applyGapUpdates] using hinv
  | cons u rest ih =>
    intro st hnames hinv hupsnodup hbound
    have happ : applyGapUpdates st (u :: rest) ref =
        applyGapUpdates (update_gap_resolved st u.gap u.qty u.status ref)
          rest ref := rfl
    rw [happ]
    refine ih (update_gap_resolved st u.gap u.qty u.status ref) ?_ ?_ ?_ ?_
    · rw [update_gap_resolved_names]
      exact hnames
    · intro g hg
      simp only [update_gap_resolved, List.mem_map] at hg
      obtain ⟨g0, hg0, rfl⟩ := hg
      by_cases hname : g0.name = u.gap
      · simp only [if_pos hname]
        exact hbound u (List.mem_cons_self u rest) g0 hg0 hname
      · simp only [if_neg hname]
        exact hinv g0 hg0
    · exact List.Nodup.of_cons hupsnodup
    · intro u2 hu2 g hg hname2
      simp only [update_gap_resolved, List.mem_map] at hg
      obtain ⟨g0, hg0, rfl⟩ := hg
      have hne : u2.gap ≠ u.gap := by
        intro hEq
        have hmem : u.gap ∈ rest.map GapUpdate.gap :=
          hEq ▸ List.mem_map_of_mem GapUpdate.gap hu2
        exact (List.nodup_cons.mp hupsnodup).1 hmem
      have hname2b : g0.name = u2.gap := by
        by_cases hname : g0.name = u.gap <;> simpa [hname] using hname2
      by_cases hname : g0.name = u.gap
      · exact absurd (hname2b.symm.trans hname) hne
      · simp only [if_neg hname]
        exact hbound u2 (List.mem_cons_of_mem u hu2) g0 hg0 hname2b

/-- Every locked pending row is a row of the gap store. -/
theorem pending_rows_mem (st : InvState) (key : String) :
    ∀ g ∈ get_pending_gaps_for_update st key, g ∈ st.gaps := by
  intro g hg
  rw [get_pending_gaps_for_update] at hg
  have hmem := (List.perm_insertionSort
    (fun a b : Gap => a.creation ≤ b.creation) _).mem_iff.mp hg
  exact List.mem_of_mem_filter hmem

/-- With unique gap names in the store, the locked rows carry unique
names. -/
theorem pending_rows_names_nodup (st : InvState) (key : String)
    (h : (st.gaps.map Gap.name).Nodup) :
    ((get_pending_gaps_for_update st key).map Gap.name).Nodup := by
  rw [get_pending_gaps_for_update]
  have hsub := (List.filter_sublist (l := st.gaps)
    (p := fun g2 => decide (g2.general_name = key ∧
      (g2.status = GapStatus.Pending ∨
        g2.status = GapStatus.Partial)))).map Gap.name
  have hfilter := hsub.nodup h
  exact ((List.perm_insertionSort
    (fun a b : Gap => a.creation ≤ b.creation) _).map Gap.name).nodup_iff.mpr
    hfilter

/-- Claim C10: conservation across gap resolution.  For a successful
resolve_gaps with positive declaration d on a store with unique gap names
and resolved_qty within gap_qty: the consumed increments sum to d minus the
returned remaining quantity, the per-item declared-stock deltas handed to
the Stock Ledger sum to the same total, and afterwards no gap has
resolved_qty above gap_qty. -/
theorem c10_gap_resolution_conservation (st : InvState) (key ref : String)
    (d : ℚ) (st2 : InvState) (res : ResolveGapsResult)
    (hnodup : (st.gaps.map Gap.name).Nodup)
    (hinv : ∀ g ∈ st.gaps, g.resolved_qty ≤ g.gap_qty)
    (hd : 0 < d)
    (hok : resolve_gaps st key d ref = .ok (st2, res)) :
    (((consume_gaps_calls (get_pending_gaps_for_update st key) d).1.map
      GapUpdate.qty).sum = d - res.remaining_qty) ∧
    (((List.insertionSort (fun a b => a.1 ≤ b.1)
        (itemDeltas (consume_gaps_calls
          (get_pending_gaps_for_update st key) d).1)).map Prod.snd).sum =
      ((consume_gaps_calls (get_pending_gaps_for_update st key) d).1.map
        GapUpdate.qty).sum) ∧
    (∀ g ∈ st2.gaps, g.resolved_qty ≤ g.gap_qty) := by
  have hdneg : ¬ d ≤ 0 := not_le.mpr hd
  rw [resolve_gaps, if_neg hdneg] at hok
  simp only [consume_gaps] at hok
  cases happly : applyStockDeltas (applyGapUpdates st
      (consume_gaps_calls (get_pending_gaps_for_update st key) d).1 ref)
      (List.insertionSort (fun a b => a.1 ≤ b.1)
        (itemDeltas (consume_gaps_calls
          (get_pending_gaps_for_update st key) d).1)) with
  | error e =>
    rw [happly] at hok
    simp at hok
  | ok stX =>
    rw [happly] at hok
    simp only [Except.ok.injEq, Prod.mk.injEq] at hok
    obtain ⟨hst2, hres⟩ := hok
    refine ⟨?_, ?_, ?_⟩
    · rw [← hres]
      have hsnd := consume_gaps_calls_snd
        (get_pending_gaps_for_update st key) d
      simp only [hsnd]
      ring
    · rw [sorted_deltas_sum, itemDeltas_sum]
    · intro g hg
      rw [← hst2] at hg
      have hgapsX : stX.gaps = (applyGapUpdates st
          (consume_gaps_calls (get_pending_gaps_for_update st key) d).1
          ref).gaps :=
        applyStockDeltas_gaps _ _ _ happly
      rw [hgapsX] at hg
      have hrowsinv : ∀ g2 ∈ get_pending_gaps_for_update st key,
          g2.resolved_qty ≤ g2.gap_qty :=
        fun g2 hg2 => hinv g2 (pending_rows_mem st key g2 hg2)
      have hcallsnodup : ((consume_gaps_calls
          (get_pending_gaps_for_update st key) d).1.map
            GapUpdate.gap).Nodup :=
        (consume_gaps_calls_names_sublist _ d).nodup
          (pending_rows_names_nodup st key hnodup)
      have hbound : ∀ u ∈ (consume_gaps_calls
          (get_pending_gaps_for_update st key) d).1,
          ∀ g2 ∈ st.gaps, g2.name = u.gap →
            g2.resolved_qty + u.qty ≤ g2.gap_qty := by
        intro u hu g2 hg2 hname
        obtain ⟨gr, hgr, hgrname, _, _, hgrbound⟩ :=
          consume_gaps_calls_bound _ d hrowsinv u hu
        have hgrmem : gr ∈ st.gaps := pending_rows_mem st key gr hgr
        have : g2 = gr := List.inj_on_of_nodup_map hnodup hg2 hgrmem
          (hname.trans hgrname)
        rw [this]
        exact hgrbound
      exact applyGapUpdates_preserves ref _ st hnodup hinv hcallsnodup
        hbound g hg

/-- Witness for claim C10 at the two-gap store with declaration 7. -/
theorem c10_gap_resolution_conservation_witness :
    ∃ p, resolve_gaps c1StateA "CN-1" 7 "DECL-1" = .ok p ∧
      (((consume_gaps_calls (get_pending_gaps_for_update c1StateA "CN-1")
        7).1.map GapUpdate.qty).sum = 7 - p.2.remaining_qty) ∧
      (∀ g ∈ p.1.gaps, g.resolved_qty ≤ g.gap_qty) := by
  cases hr : resolve_gaps c1StateA "CN-1" 7 "DECL-1" with
  | error e =>
    exfalso
    revert hr
    norm_num [resolve_gaps, consume_gaps, get_pending_gaps_for_update,
      List.insertionSort, List.orderedInsert, consume_gaps_calls,
      applyGapUpdates, update_gap_resolved, itemDeltas, addDelta,
      applyStockDeltas, update_stock_atomic, setItem, emptyInvState,
      c1StateA, c1Items, gapG1, gapG2, min_def]
    all_goals try simp
    all_goals try norm_num
    all_goals try simp
  | ok p =>
    have h := c10_gap_resolution_conservation c1StateA "CN-1" "DECL-1" 7
      p.1 p.2
      (by simp [c1StateA, gapG1, gapG2, emptyInvState])
      (by
        intro g hg
        simp only [c1StateA, emptyInvState, List.mem_cons,
          List.not_mem_nil, or_false] at hg
        rcases hg with rfl | rfl <;> norm_num [gapG1, gapG2])
      (by norm_num)
      (by rw [hr])
    exact ⟨p, rfl, h.1, h.2.2⟩

end NexPort
